import Mathlib

/-!
Shallow embedding of the medlaunch-backend report service
(`src/services/reportRepository.ts`, `src/services/reportService.ts`,
`src/middleware/auth.ts`, `src/controllers/reportController.ts`,
`src/models/report.ts`, `src/models/user.ts`) together with proofs about
its update pipeline, creation invariants and query/formatting engine.

The in-memory `sampleReports` array is modelled as a `List Report` threaded
through the operations in state-passing style: a thrown error corresponds to
returning the input store unchanged together with an `Except.error`.
JavaScript `Date` values are modelled by their epoch-millisecond value
(`getTime`); `getFullYear` is computed from the milliseconds with the
standard civil-calendar algorithm (UTC).
-/

namespace Medlaunch

/-- Enumeration `SurveyType` from `models/report.ts`. -/
inductive SurveyType
  | comprehensive
  | medication_management
  | infection_control
  | patient_safety
deriving DecidableEq, Repr

/-- Enumeration `SurveyStatus` from `models/report.ts`. -/
inductive SurveyStatus
  | compliant
  | deficient
  | immediate_jeopardy
deriving DecidableEq, Repr

/-- Enumeration `AccreditationBody` from `models/report.ts`. -/
inductive AccreditationBody
  | joint_commission
  | achc
  | dnv
deriving DecidableEq, Repr

/-- Enumeration `DeficiencySeverity` from `models/report.ts`. -/
inductive DeficiencySeverity
  | minor
  | major
  | immediate_jeopardy
deriving DecidableEq, Repr

/-- Enumeration `UserRole` from `models/user.ts`. -/
inductive UserRole
  | reader
  | editor
  | admin
deriving DecidableEq, Repr

/-- The runtime string value of a `SurveyStatus` (TypeScript string enum). -/
def SurveyStatus.key : SurveyStatus → String
  | .compliant => "compliant"
  | .deficient => "deficient"
  | .immediate_jeopardy => "immediate_jeopardy"

/-- A JavaScript `Date`, modelled by its `getTime()` value (epoch milliseconds). -/
abbrev DateMs := Int

/-- Calendar year of a day count relative to 1970-01-01 (Howard Hinnant's
`civil_from_days` algorithm, year component only). Used to model
`Date.prototype.getFullYear` (UTC). -/
def civilYearOfDays (z0 : Int) : Int :=
  let z := z0 + 719468
  let era := Int.fdiv z 146097
  let doe := z - era * 146097
  let yoe := (doe - doe / 1460 + doe / 36524 - doe / 146096) / 365
  let doy := doe - (365 * yoe + yoe / 4 - yoe / 100)
  let mp := (5 * doy + 2) / 153
  let m := if mp < 10 then mp + 3 else mp - 9
  let y := yoe + era * 400
  if m ≤ 2 then y + 1 else y

/-- Model of `new Date(t).getFullYear()` (UTC). -/
def getFullYear (t : DateMs) : Int :=
  civilYearOfDays (Int.fdiv t 86400000)

/-- Interface `Deficiency` from `models/report.ts`. `dueDate` is optional. -/
structure Deficiency where
  id : String
  standardCode : String
  description : String
  severity : DeficiencySeverity
  dueDate : Option DateMs
deriving DecidableEq, Repr

/-- Interface `Report` from `models/report.ts`. -/
structure Report where
  id : String
  facilityId : String
  surveyType : SurveyType
  surveyDate : DateMs
  leadSurveyor : String
  surveyScope : List String
  complianceScore : Int
  status : SurveyStatus
  accreditationBody : AccreditationBody
  deficiencies : List Deficiency
  correctiveActionDue : DateMs
  followUpRequired : Bool
  surveyorNotes : List String
  createdAt : DateMs
  updatedAt : DateMs
  version : Int
deriving DecidableEq, Repr

/-- The `UpdateReportInput` shape produced by `updateReportSchema`
(`utils/validators.ts`): every updatable field is optional. Date-valued
fields are already parsed into `DateMs` (the zod schema validates the ISO
datetime string, and the service converts it with `new Date(...)`). -/
structure UpdateReportInput where
  surveyType : Option SurveyType := none
  leadSurveyor : Option String := none
  surveyScope : Option (List String) := none
  complianceScore : Option Int := none
  status : Option SurveyStatus := none
  correctiveActionDue : Option DateMs := none
  followUpRequired : Option Bool := none
deriving DecidableEq, Repr

/-- The `CreateReportInput` shape produced by `createReportSchema`
(`utils/validators.ts`), with dates parsed into `DateMs`. -/
structure CreateReportInput where
  facilityId : String
  surveyType : SurveyType
  surveyDate : DateMs
  leadSurveyor : String
  surveyScope : List String
  accreditationBody : AccreditationBody
  correctiveActionDue : Option DateMs := none
  followUpRequired : Option Bool := none
deriving DecidableEq, Repr

/-- The typed errors thrown by the service and middleware layers
(`utils/errors.ts` `NotFoundError` / `ConflictError`, and the middleware's
403 response). `conflictVersion` carries the `details` object of the
version-mismatch `ConflictError` in `updateReportById`
(`expectedVersion`, `currentVersion`, `reportId`); `conflictDuplicate`
carries the `details` object of the duplicate-survey `ConflictError` in
`createNewReport` (`facilityId`, `surveyType`, `existingReportId`);
`forbiddenStatus` carries the `details` object of the middleware's 403
(`userRole`, `reportStatus`, `requiredRole`). -/
inductive ApiError
  | notFound (resource : String) (id : String)
  | conflictVersion (expectedVersion : Int) (currentVersion : Int) (reportId : String)
  | conflictDuplicate (facilityId : String) (surveyType : SurveyType) (existingReportId : String)
  | forbiddenStatus (userRole : UserRole) (reportStatus : String) (requiredRole : String)
deriving DecidableEq, Repr

/-! ## Repository (`services/reportRepository.ts`) -/

/-- `findReportById`: first report in the store whose `id` matches. -/
def findReportById : List Report → String → Option Report
  | [], _ => none
  | report :: rest, id =>
    if report.id = id then some report else findReportById rest id

/-- `findReportsByFacility`: all reports with the given `facilityId`. -/
def findReportsByFacility (store : List Report) (facilityId : String) : List Report :=
  store.filter (fun report => report.facilityId == facilityId)

/-- `createReport`: pushes the report onto the store and returns it. -/
def createReport (store : List Report) (report : Report) : List Report × Report :=
  (store ++ [report], report)

/-- The object-spread `{ ...existingReport, ...updatePayload }` restricted to
the fields an `UpdateReportInput` can carry: a defined (`some`) field
replaces the stored one, an absent (`none`) field leaves it untouched. -/
def applyUpdateData (report : Report) (updateData : UpdateReportInput) : Report :=
  { report with
    surveyType := updateData.surveyType.getD report.surveyType
    leadSurveyor := updateData.leadSurveyor.getD report.leadSurveyor
    surveyScope := updateData.surveyScope.getD report.surveyScope
    complianceScore := updateData.complianceScore.getD report.complianceScore
    status := updateData.status.getD report.status
    correctiveActionDue := updateData.correctiveActionDue.getD report.correctiveActionDue
    followUpRequired := updateData.followUpRequired.getD report.followUpRequired }

/-- The replacement record built by `updateReport`:
`{ ...existingReport, ...updatePayload, updatedAt: new Date(), version: existingReport.version + 1 }`. -/
def bumpReport (report : Report) (updateData : UpdateReportInput) (now : DateMs) : Report :=
  { applyUpdateData report updateData with updatedAt := now, version := report.version + 1 }

/-- `updateReport`: replaces the first report whose `id` matches with the
merged record (system fields `updatedAt`/`version` overridden last) and
returns the new store together with the updated report; `none` when the id
is absent (the TypeScript function returns `null`). `now` models the
`new Date()` timestamps taken during the call. -/
def updateReport : List Report → String → UpdateReportInput → DateMs →
    Option (List Report × Report)
  | [], _, _, _ => none
  | report :: rest, id, updateData, now =>
    if report.id = id then
      let updated := bumpReport report updateData now
      some (updated :: rest, updated)
    else
      match updateReport rest id updateData now with
      | none => none
      | some (rest', updated) => some (report :: rest', updated)

/-! ## Service (`services/reportService.ts`) -/

/-- `createNewReport`: enforces the facility + survey-type + calendar-year
uniqueness invariant, then inserts a server-generated report. `newId` models
the generated uuid and `now` the `new Date()` / `Date.now()` timestamps.
State-passing rendering of the TypeScript function: a thrown `ConflictError`
leaves the store unchanged. The fire-and-forget notification side effect
does not touch the store and is not modelled.

`newReportOf` is the `const newReport: Report = { ... }` literal built by
`createNewReport`: server-generated id, `complianceScore` 0, status
`compliant`, empty deficiencies and notes, corrective-action-due defaulting
to now + 30 days, `version` 1. -/
def newReportOf (reportData : CreateReportInput) (newId : String) (now : DateMs) : Report :=
  { id := newId
    facilityId := reportData.facilityId
    surveyType := reportData.surveyType
    surveyDate := reportData.surveyDate
    leadSurveyor := reportData.leadSurveyor
    surveyScope := reportData.surveyScope
    complianceScore := 0
    status := .compliant
    accreditationBody := reportData.accreditationBody
    deficiencies := []
    correctiveActionDue := reportData.correctiveActionDue.getD (now + 30 * 24 * 60 * 60 * 1000)
    followUpRequired := reportData.followUpRequired.getD false
    surveyorNotes := []
    createdAt := now
    updatedAt := now
    version := 1 }

/-- Body of `createNewReport` (see the comment above `newReportOf`). -/
def createNewReport (store : List Report) (reportData : CreateReportInput)
    (newId : String) (now : DateMs) : List Report × Except ApiError Report :=
  let existingReports := findReportsByFacility store reportData.facilityId
  let surveyYear := getFullYear reportData.surveyDate
  match existingReports.find? (fun report =>
      report.surveyType == reportData.surveyType &&
      getFullYear report.surveyDate == surveyYear) with
  | some duplicateReport =>
    (store, .error (.conflictDuplicate reportData.facilityId reportData.surveyType
      duplicateReport.id))
  | none =>
    let (store', savedReport) := createReport store (newReportOf reportData newId now)
    (store', .ok savedReport)

/-- `updateReportById`: existence check, optimistic-concurrency version
check, then delegation to the repository `updateReport`. State-passing
rendering: a thrown error leaves the store unchanged. `updatedBy` is used
only for audit logging in the source. -/
def updateReportById (store : List Report) (id : String)
    (updateData : UpdateReportInput) (version : Int) (updatedBy : String)
    (now : DateMs) : List Report × Except ApiError Report :=
  match findReportById store id with
  | none => (store, .error (.notFound "Report" id))
  | some existingReport =>
    if existingReport.version ≠ version then
      (store, .error (.conflictVersion version existingReport.version id))
    else
      match updateReport store id updateData now with
      | none => (store, .error (.notFound "Report" id))
      | some (store', updatedReport) => (store', .ok updatedReport)

/-! ## Middleware (`middleware/auth.ts`) -/

/-- `checkStatusEditPermission`: status-based edit permission table. The
status is compared as its runtime string value, so an unrecognized status
falls through to the `default: return false` branch. -/
def checkStatusEditPermission (userRole : UserRole) (reportStatus : String) : Bool :=
  if reportStatus = "immediate_jeopardy" then
    userRole == .admin
  else if reportStatus = "deficient" then
    userRole == .editor || userRole == .admin
  else if reportStatus = "compliant" then
    userRole == .reader || userRole == .editor || userRole == .admin
  else
    false

/-- `getRequiredRoleForStatus`: human-readable required role for a status. -/
def getRequiredRoleForStatus (status : String) : String :=
  if status = "immediate_jeopardy" then "admin"
  else if status = "deficient" then "editor or admin"
  else if status = "compliant" then "reader, editor, or admin"
  else "unknown"

/-- The `authorizeReportEdit()` middleware for an authenticated user and a
non-empty report id: looks the report up, then applies the status-based
permission table; on denial it responds 403 with the
`userRole`/`reportStatus`/`requiredRole` details. -/
def authorizeReportEdit (store : List Report) (userRole : UserRole)
    (reportId : String) : Except ApiError Unit :=
  match findReportById store reportId with
  | none => .error (.notFound "Report" reportId)
  | some existingReport =>
    let statusKey := existingReport.status.key
    if checkStatusEditPermission userRole statusKey then
      .ok ()
    else
      .error (.forbiddenStatus userRole statusKey (getRequiredRoleForStatus statusKey))

/-! ## Controller (`controllers/reportController.ts`) -/

/-- The controller's version resolution
`req.body.version || parseInt(req.headers['if-match'] as string) || 1`,
with JavaScript truthiness: a `0` value is falsy. `bodyVersion` is the raw
`version` field of the JSON body (`none` when absent); `ifMatchParsed` is
the `parseInt` result of the `If-Match` header, with `none` standing for
`NaN` (header absent or non-numeric). -/
def resolveVersion (bodyVersion : Option Int) (ifMatchParsed : Option Int) : Int :=
  match bodyVersion with
  | some v =>
    if v ≠ 0 then v
    else
      match ifMatchParsed with
      | some w => if w ≠ 0 then w else 1
      | none => 1
  | none =>
    match ifMatchParsed with
    | some w => if w ≠ 0 then w else 1
    | none => 1

/-- The `PUT /api/reports/:id` pipeline as wired in `api/reports/index.ts`:
`authorizeReportEdit()` middleware first, then the `updateReport` controller,
which resolves the client version and calls the service `updateReportById`. -/
def putReportPipeline (store : List Report) (userRole : UserRole)
    (reportId : String) (updateData : UpdateReportInput)
    (bodyVersion : Option Int) (ifMatchParsed : Option Int)
    (updatedBy : String) (now : DateMs) : List Report × Except ApiError Report :=
  match authorizeReportEdit store userRole reportId with
  | .error e => (store, .error e)
  | .ok _ =>
    updateReportById store reportId updateData
      (resolveVersion bodyVersion ifMatchParsed) updatedBy now

/-! ## Query / formatting engine (`formatDeficiencies`, `formatWithInclude`) -/

/-- Deficiency sort key (`deficiencies.sortBy` query parameter). -/
inductive DefSortBy
  | dueDate
  | severity
  | standardCode
deriving DecidableEq, Repr

/-- Sort direction (`deficiencies.order` query parameter). -/
inductive SortOrder
  | asc
  | desc
deriving DecidableEq, Repr

/-- The query options consumed by `formatDeficiencies`
(`deficiencies.severity`, `deficiencies.sortBy`, `deficiencies.order`,
`page`, `limit`); `none` means the parameter was absent. -/
structure DeficiencyQueryOptions where
  severityFilter : Option DeficiencySeverity := none
  sortBy : Option DefSortBy := none
  order : Option SortOrder := none
  page : Option Nat := none
  limit : Option Nat := none
deriving DecidableEq, Repr

/-- The `severityOrder` rank table: `immediate_jeopardy: 3, major: 2, minor: 1`. -/
def severityOrder : DeficiencySeverity → Int
  | .immediate_jeopardy => 3
  | .major => 2
  | .minor => 1

/-- The `dueDate` branch of the comparator: numeric `getTime` difference
with a missing due date treated as `Infinity`. Only the sign of the result
matters to the sort; the infinite cases are rendered as `±1`, and the
`Infinity - Infinity = NaN` case as `0` (the ECMAScript sort treats a `NaN`
comparator result as `+0`). -/
def dueDateCompare (a b : Deficiency) : Int :=
  match a.dueDate, b.dueDate with
  | some x, some y => x - y
  | some _, none => -1
  | none, some _ => 1
  | none, none => 0

/-- Sign of `localeCompare`, modelled as lexicographic string comparison. -/
def stringCompare (a b : String) : Int :=
  match compare a b with
  | .lt => -1
  | .eq => 0
  | .gt => 1

/-- The `comparison` value computed in the sort callback of
`formatDeficiencies` for each `sortBy` key. Note the `severity` branch is
`severityOrder[b] - severityOrder[a]`. -/
def baseCompare (sortBy : DefSortBy) (a b : Deficiency) : Int :=
  match sortBy with
  | .dueDate => dueDateCompare a b
  | .severity => severityOrder b.severity - severityOrder a.severity
  | .standardCode => stringCompare a.standardCode b.standardCode

/-- The full comparator: `sortOrder === 'asc' ? comparison : -comparison`. -/
def defComparator (sortBy : DefSortBy) (sortOrder : SortOrder)
    (a b : Deficiency) : Int :=
  if sortOrder = .asc then baseCompare sortBy a b else -baseCompare sortBy a b

/-- Stable insertion into a list sorted by a JavaScript-style comparator
(negative means the first argument sorts earlier). -/
def insertCmp {α : Type} (cmp : α → α → Int) (x : α) : List α → List α
  | [] => [x]
  | y :: ys => if cmp x y ≤ 0 then x :: y :: ys else y :: insertCmp cmp x ys

/-- Stable sort by a JavaScript-style comparator, modelling
`Array.prototype.sort` (which is stable, and agrees with any stable sort
because the comparators used here are consistent). -/
def sortByCmp {α : Type} (cmp : α → α → Int) : List α → List α
  | [] => []
  | x :: xs => insertCmp cmp x (sortByCmp cmp xs)

/-- The severity filter step of `formatDeficiencies`. -/
def filteredDeficiencies (deficiencies : List Deficiency)
    (options : DeficiencyQueryOptions) : List Deficiency :=
  match options.severityFilter with
  | some sev => deficiencies.filter (fun d => d.severity == sev)
  | none => deficiencies

/-- The filter-then-sort steps of `formatDeficiencies` (the source sorts the
`filtered` array in place), with the source defaults
`sortBy = 'severity'`, `order = 'desc'`. -/
def sortedDeficiencies (deficiencies : List Deficiency)
    (options : DeficiencyQueryOptions) : List Deficiency :=
  sortByCmp
    (defComparator (options.sortBy.getD .severity) (options.order.getD .desc))
    (filteredDeficiencies deficiencies options)

/-- JavaScript `options.x || default` on an optional number: a supplied `0`
is falsy and falls back to the default. -/
def jsOrNat (x : Option Nat) (default : Nat) : Nat :=
  match x with
  | some v => if v = 0 then default else v
  | none => default

/-- JavaScript truthiness of an optional number (`undefined` and `0` are
falsy). -/
def natTruthy : Option Nat → Bool
  | some v => v != 0
  | none => false

/-- The `pagination` metadata object of the deficiency envelope. -/
structure PaginationMeta where
  currentPage : Nat
  totalPages : Nat
  totalItems : Nat
  itemsPerPage : Nat
  hasNext : Bool
  hasPrev : Bool
deriving DecidableEq, Repr

/-- Result of `formatDeficiencies`: either the bare (filtered, sorted,
default-sliced) array, or the `{ items, pagination }` envelope. -/
inductive DeficienciesResult
  | bare (items : List Deficiency)
  | paginated (items : List Deficiency) (pagination : PaginationMeta)
deriving DecidableEq, Repr

/-- `formatDeficiencies`: filter by severity, sort, slice
`[(page-1)*limit, (page-1)*limit + limit)` with defaults `page = 1`,
`limit = 20`, and wrap in the pagination envelope exactly when `page` or
`limit` was (truthily) supplied. The source sorts `filtered` in place, so
`filtered.length` below is the length of the sorted list.
`Math.ceil(filtered.length / limit)` is `(filtered.length + limit - 1) / limit`
in natural-number arithmetic (here `limit ≥ 1` always, because a supplied
`0` falls back to the default). -/
def formatDeficiencies (deficiencies : List Deficiency)
    (options : DeficiencyQueryOptions) : DeficienciesResult :=
  let sorted := sortedDeficiencies deficiencies options
  let page := jsOrNat options.page 1
  let limit := jsOrNat options.limit 20
  let startIndex := (page - 1) * limit
  let paginatedDeficiencies := (sorted.drop startIndex).take limit
  if natTruthy options.page || natTruthy options.limit then
    .paginated paginatedDeficiencies
      { currentPage := page
        totalPages := (sorted.length + limit - 1) / limit
        totalItems := sorted.length
        itemsPerPage := limit
        hasNext := decide (startIndex + limit < sorted.length)
        hasPrev := decide (page > 1) }
  else
    .bare paginatedDeficiencies

/-- The dynamic object built by `formatWithInclude`, with one optional slot
per key the source can set (`result[field]` uses the *requested* name as the
key, so `notes` and `surveyorNotes` are distinct slots holding the same
attribute). `id` is always present. -/
structure IncludeResult where
  id : String
  facilityId : Option String := none
  surveyType : Option SurveyType := none
  complianceScore : Option Int := none
  status : Option SurveyStatus := none
  surveyDate : Option DateMs := none
  leadSurveyor : Option String := none
  accreditationBody : Option AccreditationBody := none
  notes : Option (List String) := none
  surveyorNotes : Option (List String) := none
  deficiencies : Option DeficienciesResult := none
deriving DecidableEq, Repr

/-- Whitespace trim of a character list, modelling `String.prototype.trim`. -/
def trimChars (cs : List Char) : List Char :=
  ((cs.dropWhile Char.isWhitespace).reverse.dropWhile Char.isWhitespace).reverse

/-- `include.split(',').map(f => f.trim())`. -/
def parseIncludeFields (s : String) : List String :=
  (s.toList.splitOn ',').map (fun cs => String.mk (trimChars cs))

/-- One iteration of the `fields.forEach` loop in `formatWithInclude`:
`basic` sets the fixed five-field subset, `deficiencies` triggers
sub-collection processing, any other key of `fieldMap` copies the mapped
attribute under the requested name, and an unrecognized name leaves the
result untouched. -/
def applyIncludeField (report : Report) (options : DeficiencyQueryOptions)
    (acc : IncludeResult) (field : String) : IncludeResult :=
  if field = "basic" then
    { acc with
      facilityId := some report.facilityId
      surveyType := some report.surveyType
      complianceScore := some report.complianceScore
      status := some report.status
      surveyDate := some report.surveyDate }
  else if field = "deficiencies" then
    { acc with deficiencies := some (formatDeficiencies report.deficiencies options) }
  else if field = "notes" then
    { acc with notes := some report.surveyorNotes }
  else if field = "surveyorNotes" then
    { acc with surveyorNotes := some report.surveyorNotes }
  else if field = "complianceScore" then
    { acc with complianceScore := some report.complianceScore }
  else if field = "status" then
    { acc with status := some report.status }
  else if field = "surveyType" then
    { acc with surveyType := some report.surveyType }
  else if field = "facilityId" then
    { acc with facilityId := some report.facilityId }
  else if field = "leadSurveyor" then
    { acc with leadSurveyor := some report.leadSurveyor }
  else if field = "surveyDate" then
    { acc with surveyDate := some report.surveyDate }
  else if field = "accreditationBody" then
    { acc with accreditationBody := some report.accreditationBody }
  else
    acc

/-- `formatWithInclude`: starts from `{ id: report.id }` and folds the
parsed field names over the result object. -/
def formatWithInclude (report : Report) (includeStr : String)
    (options : DeficiencyQueryOptions) : IncludeResult :=
  (parseIncludeFields includeStr).foldl (applyIncludeField report options)
    { id := report.id }

/-- The field names `formatWithInclude` recognizes: the keys of `fieldMap`
together with the reserved name `basic`. -/
def recognizedIncludeFields : List String :=
  ["basic", "deficiencies", "notes", "surveyorNotes", "complianceScore",
   "status", "surveyType", "facilityId", "leadSurveyor", "surveyDate",
   "accreditationBody"]

/-- A chain of update requests against one report id: each step carries the
update payload, the client-supplied version, and the request timestamp. The
chain aborts on the first failed update. -/
def runUpdateChain : List Report → String → String →
    List (UpdateReportInput × Int × DateMs) → Option (List Report)
  | store, _, _, [] => some store
  | store, id, updatedBy, (u, v, now) :: rest =>
    match updateReportById store id u v updatedBy now with
    | (_, .error _) => none
    | (store', .ok _) => runUpdateChain store' id updatedBy rest

/-- Reports whether a service result is the optimistic-concurrency
version-mismatch `ConflictError`. -/
def isVersionConflict : Except ApiError Report → Bool
  | .error (.conflictVersion _ _ _) => true
  | _ => false

/-! ## Helper lemmas -/

theorem bumpReport_id (report : Report) (u : UpdateReportInput) (now : DateMs) :
    (bumpReport report u now).id = report.id := rfl

theorem bumpReport_version (report : Report) (u : UpdateReportInput) (now : DateMs) :
    (bumpReport report u now).version = report.version + 1 := rfl

/-- `updateReport` replaces exactly the first report matching the id with its
bumped form and the result is found again under that id. -/
theorem updateReport_spec (id : String) (u : UpdateReportInput) (now : DateMs) :
    ∀ (store : List Report) (pre : Report), findReportById store id = some pre →
      ∃ store', updateReport store id u now = some (store', bumpReport pre u now) ∧
        findReportById store' id = some (bumpReport pre u now) := by
  intro store
  induction store with
  | nil => intro pre h; simp [findReportById] at h
  | cons r rest ih =>
    intro pre h
    by_cases hid : r.id = id
    · rw [findReportById, if_pos hid] at h
      injection h with h
      subst h
      refine ⟨bumpReport r u now :: rest, ?_, ?_⟩
      · simp [updateReport, hid]
      · rw [findReportById, if_pos (by rw [bumpReport_id]; exact hid)]
    · rw [findReportById, if_neg hid] at h
      obtain ⟨store', h1, h2⟩ := ih pre h
      refine ⟨r :: store', ?_, ?_⟩
      · rw [updateReport, if_neg hid, h1]
      · rw [findReportById, if_neg hid]; exact h2

/-- Success form of `updateReportById` when the report exists and the client
version matches. -/
theorem updateReportById_ok {store : List Report} {id : String} {pre : Report}
    (u : UpdateReportInput) (updatedBy : String) (now : DateMs)
    (h : findReportById store id = some pre) {version : Int}
    (hv : pre.version = version) :
    ∃ store', updateReportById store id u version updatedBy now =
        (store', Except.ok (bumpReport pre u now)) ∧
      findReportById store' id = some (bumpReport pre u now) := by
  obtain ⟨store', h1, h2⟩ := updateReport_spec id u now store pre h
  refine ⟨store', ?_, h2⟩
  simp [updateReportById, h, hv, h1]

/-- Inversion: a successful `updateReportById` implies the version matched
and the returned report is the bumped stored report. -/
theorem updateReportById_ok_inv {store store' : List Report} {id updatedBy : String}
    {pre r' : Report} {u : UpdateReportInput} {version : Int} {now : DateMs}
    (h : findReportById store id = some pre)
    (hok : updateReportById store id u version updatedBy now = (store', Except.ok r')) :
    pre.version = version ∧ r' = bumpReport pre u now ∧
      findReportById store' id = some r' := by
  by_cases hv : pre.version = version
  · obtain ⟨store'', h1, h2⟩ := updateReportById_ok u updatedBy now h hv
    rw [h1] at hok
    obtain ⟨rfl, hr⟩ := Prod.mk.inj hok
    obtain rfl : bumpReport pre u now = r' := by injection hr
    exact ⟨hv, rfl, h2⟩
  · exfalso
    simp [updateReportById, h, hv] at hok

/-- Appending a fresh report to a store that does not contain its id. -/
theorem findReportById_append {store : List Report} {id : String}
    (r : Report) (h : findReportById store id = none) :
    findReportById (store ++ [r]) id = if r.id = id then some r else none := by
  induction store with
  | nil => simp [findReportById]
  | cons x rest ih =>
    by_cases hx : x.id = id
    · rw [findReportById, if_pos hx] at h; exact absurd h (by simp)
    · rw [findReportById, if_neg hx] at h
      rw [List.cons_append, findReportById, if_neg hx]
      exact ih h

/-- After a chain of `n` successful updates the stored version has grown by
exactly `n`. -/
theorem runUpdateChain_version (id updatedBy : String) :
    ∀ (steps : List (UpdateReportInput × Int × DateMs)) (store : List Report)
      (pre : Report) (store'' : List Report),
      findReportById store id = some pre →
      runUpdateChain store id updatedBy steps = some store'' →
      ∃ r'', findReportById store'' id = some r'' ∧
        r''.version = pre.version + steps.length := by
  intro steps
  induction steps with
  | nil =>
    intro store pre store'' h hrun
    rw [runUpdateChain] at hrun
    obtain rfl : store = store'' := by injection hrun
    exact ⟨pre, h, by simp⟩
  | cons step rest ih =>
    intro store pre store'' h hrun
    obtain ⟨u, v, now⟩ := step
    rw [runUpdateChain] at hrun
    rcases hup : updateReportById store id u v updatedBy now with ⟨storeMid, res⟩
    rw [hup] at hrun
    cases res with
    | error e => simp at hrun
    | ok r' =>
      obtain ⟨hv, hr', hfind⟩ := updateReportById_ok_inv h hup
      obtain ⟨r'', hf, hvr⟩ := ih storeMid r' store'' hfind hrun
      refine ⟨r'', hf, ?_⟩
      rw [hvr, hr', bumpReport_version]
      simp only [List.length_cons]
      push_cast
      ring

/-- Inversion of a successful `createNewReport`. -/
theorem createNewReport_ok_inv {store store₁ : List Report}
    {data : CreateReportInput} {newId : String} {now : DateMs} {r₀ : Report}
    (h : createNewReport store data newId now = (store₁, Except.ok r₀)) :
    store₁ = store ++ [r₀] ∧ r₀.id = newId ∧ r₀.version = 1 ∧
      r₀.facilityId = data.facilityId ∧ r₀.surveyType = data.surveyType ∧
      r₀.surveyDate = data.surveyDate := by
  simp only [createNewReport, createReport] at h
  split at h
  · simp at h
  · obtain ⟨h1, h2⟩ := Prod.mk.inj h
    obtain rfl := by injection h2
    exact ⟨h1.symm, rfl, rfl, rfl, rfl, rfl⟩

/-! ## Witness fixtures -/

/-- A small concrete report used by the witnesses. -/
def mkReport (id facilityId : String) (status : SurveyStatus) (version : Int) : Report :=
  { id := id
    facilityId := facilityId
    surveyType := .comprehensive
    surveyDate := 0
    leadSurveyor := "Lead"
    surveyScope := ["ICU"]
    complianceScore := 50
    status := status
    accreditationBody := .achc
    deficiencies := []
    correctiveActionDue := 0
    followUpRequired := false
    surveyorNotes := []
    createdAt := 0
    updatedAt := 0
    version := version }

/-- A concrete creation payload used by the witnesses. -/
def wCreateInput : CreateReportInput :=
  { facilityId := "fac-1"
    surveyType := .comprehensive
    surveyDate := 0
    leadSurveyor := "Lead"
    surveyScope := ["ICU"]
    accreditationBody := .achc }

/-- The report `createNewReport` builds from `wCreateInput` at time 0. -/
def wNewReport : Report :=
  { id := "r-1"
    facilityId := "fac-1"
    surveyType := .comprehensive
    surveyDate := 0
    leadSurveyor := "Lead"
    surveyScope := ["ICU"]
    complianceScore := 0
    status := .compliant
    accreditationBody := .achc
    deficiencies := []
    correctiveActionDue := 2592000000
    followUpRequired := false
    surveyorNotes := []
    createdAt := 0
    updatedAt := 0
    version := 1 }

/-! ## Claim theorems -/

/-- C1: an update on an existing report whose client-supplied version
differs from the stored version fails with the version-mismatch Conflict
error whose details carry `expectedVersion` = the client-supplied version,
`currentVersion` = the stored version and the report id, and the store is
returned unchanged (no partial application). -/
theorem update_version_conflict
    (store : List Report) (id : String) (pre : Report) (u : UpdateReportInput)
    (version : Int) (updatedBy : String) (now : DateMs)
    (h : findReportById store id = some pre) (hv : pre.version ≠ version) :
    updateReportById store id u version updatedBy now =
      (store, Except.error (ApiError.conflictVersion version pre.version id)) := by
  simp [updateReportById, h, hv]

theorem update_version_conflict_witness :
    findReportById [mkReport "r-9" "f" SurveyStatus.compliant 3] "r-9" =
        some (mkReport "r-9" "f" SurveyStatus.compliant 3) ∧
      (mkReport "r-9" "f" SurveyStatus.compliant 3).version ≠ 1 ∧
      updateReportById [mkReport "r-9" "f" SurveyStatus.compliant 3] "r-9" {} 1 "u" 7 =
        ([mkReport "r-9" "f" SurveyStatus.compliant 3],
          Except.error (ApiError.conflictVersion 1 3 "r-9")) :=
  ⟨by decide, by decide,
    update_version_conflict [mkReport "r-9" "f" SurveyStatus.compliant 3] "r-9"
      (mkReport "r-9" "f" SurveyStatus.compliant 3) {} 1 "u" 7 (by decide) (by decide)⟩

/-- C2: a freshly created report has version 1, every successful update
increments the stored version by exactly 1, and after `N` successful updates
the stored version equals `1 + N`. -/
theorem version_one_plus_n_updates :
    (∀ (store store' : List Report) (id : String) (pre r' : Report)
       (u : UpdateReportInput) (version : Int) (updatedBy : String) (now : DateMs),
       findReportById store id = some pre →
       updateReportById store id u version updatedBy now = (store', Except.ok r') →
       r'.version = pre.version + 1)
    ∧ (∀ (store store₁ store₂ : List Report) (data : CreateReportInput)
         (newId updatedBy : String) (now : DateMs) (r₀ : Report)
         (steps : List (UpdateReportInput × Int × DateMs)),
         createNewReport store data newId now = (store₁, Except.ok r₀) →
         findReportById store newId = none →
         runUpdateChain store₁ newId updatedBy steps = some store₂ →
         r₀.version = 1 ∧ ∃ r', findReportById store₂ newId = some r' ∧
           r'.version = 1 + steps.length) := by
  constructor
  · intro store store' id pre r' u version updatedBy now h hok
    obtain ⟨_, hr', _⟩ := updateReportById_ok_inv h hok
    rw [hr', bumpReport_version]
  · intro store store₁ store₂ data newId updatedBy now r₀ steps hcreate hfresh hchain
    obtain ⟨hstore, hid, hver, -, -, -⟩ := createNewReport_ok_inv hcreate
    have hfind : findReportById store₁ newId = some r₀ := by
      rw [hstore, findReportById_append r₀ hfresh, if_pos hid]
    obtain ⟨r', hf, hvr⟩ := runUpdateChain_version newId updatedBy steps store₁ r₀ store₂ hfind hchain
    exact ⟨hver, r', hf, by rw [hvr, hver]⟩

theorem version_one_plus_n_updates_witness :
    createNewReport [] wCreateInput "r-1" 0 = ([wNewReport], Except.ok wNewReport) ∧
      findReportById [] "r-1" = none ∧
      runUpdateChain [wNewReport] "r-1" "u"
          [({ followUpRequired := some true }, 1, 5)] =
        some [{ wNewReport with followUpRequired := true, updatedAt := 5, version := 2 }] ∧
      wNewReport.version = 1 ∧
      ∃ r', findReportById
          [{ wNewReport with followUpRequired := true, updatedAt := 5, version := 2 }]
          "r-1" = some r' ∧ r'.version = 1 + 1 :=
  ⟨rfl, rfl, by decide,
    (version_one_plus_n_updates.2 [] [wNewReport]
        [{ wNewReport with followUpRequired := true, updatedAt := 5, version := 2 }]
        wCreateInput "r-1" "u" 0 wNewReport
        [({ followUpRequired := some true }, 1, 5)]
        rfl rfl (by decide))⟩

/-- C3: the status-based edit-permission decision matches the table exactly:
`immediate_jeopardy` permits only admin; `deficient` permits editor and
admin; `compliant` permits reader, editor and admin; any unrecognized status
string denies every role. -/
theorem status_edit_permission_table :
    (checkStatusEditPermission .admin "immediate_jeopardy" = true ∧
     checkStatusEditPermission .editor "immediate_jeopardy" = false ∧
     checkStatusEditPermission .reader "immediate_jeopardy" = false) ∧
    (checkStatusEditPermission .admin "deficient" = true ∧
     checkStatusEditPermission .editor "deficient" = true ∧
     checkStatusEditPermission .reader "deficient" = false) ∧
    (checkStatusEditPermission .admin "compliant" = true ∧
     checkStatusEditPermission .editor "compliant" = true ∧
     checkStatusEditPermission .reader "compliant" = true) ∧
    (∀ s : String, s ≠ "immediate_jeopardy" → s ≠ "deficient" → s ≠ "compliant" →
     ∀ role : UserRole, checkStatusEditPermission role s = false) := by
  refine ⟨⟨by decide, by decide, by decide⟩, ⟨by decide, by decide, by decide⟩,
    ⟨by decide, by decide, by decide⟩, ?_⟩
  intro s h1 h2 h3 role
  rw [checkStatusEditPermission, if_neg h1, if_neg h2, if_neg h3]

theorem status_edit_permission_table_witness :
    ("pending" : String) ≠ "immediate_jeopardy" ∧
      checkStatusEditPermission .admin "pending" = false :=
  ⟨by decide,
    status_edit_permission_table.2.2.2 "pending" (by decide) (by decide) (by decide) .admin⟩

/-- C4: when the actor's role is not permitted for the report's current
(pre-update) status, the PUT pipeline fails with the Forbidden outcome
carrying the actor's role, the report's current status and the required
role (in particular requiredRole = "admin" for `immediate_jeopardy`), and
the denial is never turned into a success. -/
theorem forbidden_on_status_denial
    (store : List Report) (role : UserRole) (reportId : String) (pre : Report)
    (u : UpdateReportInput) (bodyVersion ifMatchParsed : Option Int)
    (updatedBy : String) (now : DateMs)
    (h : findReportById store reportId = some pre)
    (hperm : checkStatusEditPermission role pre.status.key = false) :
    putReportPipeline store role reportId u bodyVersion ifMatchParsed updatedBy now =
      (store, Except.error (ApiError.forbiddenStatus role pre.status.key
        (getRequiredRoleForStatus pre.status.key)))
    ∧ (pre.status = .immediate_jeopardy →
       getRequiredRoleForStatus pre.status.key = "admin") := by
  constructor
  · simp [putReportPipeline, authorizeReportEdit, h, hperm]
  · intro hs; rw [hs]; rfl

theorem forbidden_on_status_denial_witness :
    findReportById [mkReport "r-4" "f" SurveyStatus.immediate_jeopardy 1] "r-4" =
        some (mkReport "r-4" "f" SurveyStatus.immediate_jeopardy 1) ∧
      checkStatusEditPermission .editor
        (mkReport "r-4" "f" SurveyStatus.immediate_jeopardy 1).status.key = false ∧
      putReportPipeline [mkReport "r-4" "f" SurveyStatus.immediate_jeopardy 1]
          .editor "r-4" {} (some 1) none "u" 9 =
        ([mkReport "r-4" "f" SurveyStatus.immediate_jeopardy 1],
          Except.error (ApiError.forbiddenStatus .editor "immediate_jeopardy" "admin")) ∧
      getRequiredRoleForStatus "immediate_jeopardy" = "admin" :=
  ⟨by decide, by decide,
    (forbidden_on_status_denial [mkReport "r-4" "f" SurveyStatus.immediate_jeopardy 1]
      .editor "r-4" (mkReport "r-4" "f" SurveyStatus.immediate_jeopardy 1) {}
      (some 1) none "u" 9 (by decide) (by decide)).1,
    (forbidden_on_status_denial [mkReport "r-4" "f" SurveyStatus.immediate_jeopardy 1]
      .editor "r-4" (mkReport "r-4" "f" SurveyStatus.immediate_jeopardy 1) {}
      (some 1) none "u" 9 (by decide) (by decide)).2 rfl⟩

/-- C5: creation fails with the duplicate-survey Conflict error (carrying
`facilityId`, `surveyType` and the colliding report's id) whenever some
stored report has the same facility, same survey type and a survey date in
the same calendar year — leaving the store unchanged — and succeeds,
appending the new report, when every same-facility same-type report lies in
a different calendar year. -/
theorem survey_uniqueness_conflict :
    (∀ (store : List Report) (data : CreateReportInput) (newId : String)
       (now : DateMs) (r : Report), r ∈ store → r.facilityId = data.facilityId →
       r.surveyType = data.surveyType →
       getFullYear r.surveyDate = getFullYear data.surveyDate →
       ∃ dup, dup ∈ store ∧ dup.facilityId = data.facilityId ∧
         dup.surveyType = data.surveyType ∧
         getFullYear dup.surveyDate = getFullYear data.surveyDate ∧
         createNewReport store data newId now =
           (store, Except.error (ApiError.conflictDuplicate data.facilityId
             data.surveyType dup.id)))
    ∧ (∀ (store : List Report) (data : CreateReportInput) (newId : String)
         (now : DateMs),
         (∀ r ∈ store, r.facilityId = data.facilityId →
           r.surveyType = data.surveyType →
           getFullYear r.surveyDate ≠ getFullYear data.surveyDate) →
         createNewReport store data newId now =
           (store ++ [newReportOf data newId now],
             Except.ok (newReportOf data newId now)) ∧
           (newReportOf data newId now).id = newId ∧
           (newReportOf data newId now).facilityId = data.facilityId ∧
           (newReportOf data newId now).surveyType = data.surveyType ∧
           (newReportOf data newId now).surveyDate = data.surveyDate ∧
           (newReportOf data newId now).version = 1) := by
  constructor
  · intro store data newId now r hr hf ht hy
    cases hfind : (findReportsByFacility store data.facilityId).find?
        (fun report => report.surveyType == data.surveyType &&
          getFullYear report.surveyDate == getFullYear data.surveyDate) with
    | none =>
      exfalso
      have hmem : r ∈ findReportsByFacility store data.facilityId := by
        simp [findReportsByFacility, List.mem_filter, hr, hf]
      have hnot := List.find?_eq_none.mp hfind r hmem
      apply hnot
      simp [ht, hy]
    | some dup =>
      have hpq := List.find?_some hfind
      have hmem := List.mem_of_find?_eq_some hfind
      have hmem' : dup ∈ store ∧ dup.facilityId = data.facilityId := by
        simpa [findReportsByFacility, List.mem_filter] using hmem
      have hpq' : dup.surveyType = data.surveyType ∧
          getFullYear dup.surveyDate = getFullYear data.surveyDate := by
        simpa [beq_iff_eq] using hpq
      refine ⟨dup, hmem'.1, hmem'.2, hpq'.1, hpq'.2, ?_⟩
      simp only [createNewReport]
      rw [hfind]
  · intro store data newId now hall
    have hfind : (findReportsByFacility store data.facilityId).find?
        (fun report => report.surveyType == data.surveyType &&
          getFullYear report.surveyDate == getFullYear data.surveyDate) = none := by
      apply List.find?_eq_none.mpr
      intro x hx hqx
      have hx' : x ∈ store ∧ x.facilityId = data.facilityId := by
        simpa [findReportsByFacility, List.mem_filter] using hx
      obtain ⟨hty, hyy⟩ : x.surveyType = data.surveyType ∧
          getFullYear x.surveyDate = getFullYear data.surveyDate := by
        simpa [beq_iff_eq] using hqx
      exact hall x hx'.1 hx'.2 hty hyy
    refine ⟨?_, rfl, rfl, rfl, rfl, rfl⟩
    simp only [createNewReport, createReport]
    rw [hfind]

/-- Creation payload colliding with `mkReport "r-a"` (same facility, same
type, survey date in 1970). -/
def wDupInput : CreateReportInput :=
  { wCreateInput with facilityId := "facX", surveyDate := 100 }

/-- Creation payload with the same facility and type but a 1971 survey date. -/
def wOkInput : CreateReportInput :=
  { wCreateInput with facilityId := "facX", surveyDate := 31536000000 }

theorem survey_uniqueness_conflict_witness :
    (∃ dup, dup ∈ [mkReport "r-a" "facX" SurveyStatus.compliant 1] ∧
      dup.facilityId = wDupInput.facilityId ∧
      dup.surveyType = wDupInput.surveyType ∧
      getFullYear dup.surveyDate = getFullYear wDupInput.surveyDate ∧
      createNewReport [mkReport "r-a" "facX" SurveyStatus.compliant 1]
          wDupInput "r-b" 0 =
        ([mkReport "r-a" "facX" SurveyStatus.compliant 1],
          Except.error (ApiError.conflictDuplicate wDupInput.facilityId
            wDupInput.surveyType dup.id)))
    ∧ createNewReport [mkReport "r-a" "facX" SurveyStatus.compliant 1]
          wOkInput "r-c" 0 =
        ([mkReport "r-a" "facX" SurveyStatus.compliant 1] ++
          [newReportOf wOkInput "r-c" 0],
          Except.ok (newReportOf wOkInput "r-c" 0)) :=
  ⟨survey_uniqueness_conflict.1 [mkReport "r-a" "facX" SurveyStatus.compliant 1]
      wDupInput "r-b" 0
      (mkReport "r-a" "facX" SurveyStatus.compliant 1) (by decide) (by decide)
      (by decide) (by decide),
    (survey_uniqueness_conflict.2 [mkReport "r-a" "facX" SurveyStatus.compliant 1]
      wOkInput "r-c" 0 (by decide)).1⟩

/-- C9: a successful update modifies only the fields present in the payload
plus `updatedAt` and `version`; every omitted updatable field and every
non-updatable field keeps its pre-update value, `updatedAt` becomes the
request time, and `version` grows by exactly 1. -/
theorem update_frame_condition
    (store store' : List Report) (id updatedBy : String) (pre r' : Report)
    (u : UpdateReportInput) (version : Int) (now : DateMs)
    (h : findReportById store id = some pre)
    (hok : updateReportById store id u version updatedBy now = (store', Except.ok r')) :
    (u.surveyType = none → r'.surveyType = pre.surveyType) ∧
    (u.leadSurveyor = none → r'.leadSurveyor = pre.leadSurveyor) ∧
    (u.surveyScope = none → r'.surveyScope = pre.surveyScope) ∧
    (u.complianceScore = none → r'.complianceScore = pre.complianceScore) ∧
    (u.status = none → r'.status = pre.status) ∧
    (u.correctiveActionDue = none → r'.correctiveActionDue = pre.correctiveActionDue) ∧
    (u.followUpRequired = none → r'.followUpRequired = pre.followUpRequired) ∧
    r'.id = pre.id ∧ r'.facilityId = pre.facilityId ∧ r'.surveyDate = pre.surveyDate ∧
    r'.accreditationBody = pre.accreditationBody ∧ r'.deficiencies = pre.deficiencies ∧
    r'.surveyorNotes = pre.surveyorNotes ∧ r'.createdAt = pre.createdAt ∧
    r'.updatedAt = now ∧ r'.version = pre.version + 1 := by
  obtain ⟨-, hr', -⟩ := updateReportById_ok_inv h hok
  subst hr'
  refine ⟨?_, ?_, ?_, ?_, ?_, ?_, ?_, rfl, rfl, rfl, rfl, rfl, rfl, rfl, rfl, rfl⟩ <;>
    (intro hnone; simp [bumpReport, applyUpdateData, hnone])

/-- Fixtures for the frame-condition witness. -/
def wPre : Report := mkReport "r-2" "f" .compliant 1

def wUpd : UpdateReportInput := { followUpRequired := some true }

def wPost : Report := { wPre with followUpRequired := true, updatedAt := 5, version := 2 }

theorem update_frame_condition_witness :
    (wUpd.surveyType = none → wPost.surveyType = wPre.surveyType) ∧
    (wUpd.leadSurveyor = none → wPost.leadSurveyor = wPre.leadSurveyor) ∧
    (wUpd.surveyScope = none → wPost.surveyScope = wPre.surveyScope) ∧
    (wUpd.complianceScore = none → wPost.complianceScore = wPre.complianceScore) ∧
    (wUpd.status = none → wPost.status = wPre.status) ∧
    (wUpd.correctiveActionDue = none → wPost.correctiveActionDue = wPre.correctiveActionDue) ∧
    (wUpd.followUpRequired = none → wPost.followUpRequired = wPre.followUpRequired) ∧
    wPost.id = wPre.id ∧ wPost.facilityId = wPre.facilityId ∧
    wPost.surveyDate = wPre.surveyDate ∧
    wPost.accreditationBody = wPre.accreditationBody ∧
    wPost.deficiencies = wPre.deficiencies ∧
    wPost.surveyorNotes = wPre.surveyorNotes ∧ wPost.createdAt = wPre.createdAt ∧
    wPost.updatedAt = 5 ∧ wPost.version = wPre.version + 1 :=
  update_frame_condition [wPre] [wPost] "r-2" "u" wPre wPost wUpd 1 5 rfl rfl

/-- C10: a version-less update request (body `version` absent or `0`,
`If-Match` header absent or non-numeric, i.e. `parseInt` gives `NaN`) is run
with version 1, and therefore passes the optimistic-concurrency check
exactly when the stored report's version is 1. -/
theorem versionless_update_defaults_to_one :
    ∀ (bodyVersion ifMatchParsed : Option Int),
    (bodyVersion = none ∨ bodyVersion = some 0) → ifMatchParsed = none →
    resolveVersion bodyVersion ifMatchParsed = 1 ∧
    (∀ (store : List Report) (id updatedBy : String) (u : UpdateReportInput)
       (now : DateMs) (pre : Report), findReportById store id = some pre →
       (isVersionConflict (updateReportById store id u
           (resolveVersion bodyVersion ifMatchParsed) updatedBy now).2 = false ↔
         pre.version = 1)) := by
  intro bv im hbv him
  have h1 : resolveVersion bv im = 1 := by
    subst him
    rcases hbv with rfl | rfl <;> simp [resolveVersion]
  refine ⟨h1, ?_⟩
  intro store id updatedBy u now pre h
  rw [h1]
  by_cases hv : pre.version = 1
  · obtain ⟨store', h2, -⟩ := updateReportById_ok u updatedBy now h hv
    rw [h2]
    simp [isVersionConflict, hv]
  · have h2 : updateReportById store id u 1 updatedBy now =
        (store, Except.error (ApiError.conflictVersion 1 pre.version id)) := by
      simp [updateReportById, h, hv]
    rw [h2]
    simp [isVersionConflict, hv]

/-- Length is preserved by comparator insertion. -/
theorem insertCmp_length {α : Type} (cmp : α → α → Int) (x : α) :
    ∀ l : List α, (insertCmp cmp x l).length = l.length + 1 := by
  intro l
  induction l with
  | nil => rfl
  | cons y ys ih =>
    rw [insertCmp]
    by_cases h : cmp x y ≤ 0
    · rw [if_pos h]; rfl
    · rw [if_neg h, List.length_cons, List.length_cons, ih]

/-- Length is preserved by the comparator sort. -/
theorem sortByCmp_length {α : Type} (cmp : α → α → Int) :
    ∀ l : List α, (sortByCmp cmp l).length = l.length := by
  intro l
  induction l with
  | nil => rfl
  | cons x xs ih => rw [sortByCmp, insertCmp_length, ih, List.length_cons]

/-- Sorting (done in place in the source) does not change the length of the
filtered deficiency list. -/
theorem sortedDeficiencies_length (defs : List Deficiency)
    (opts : DeficiencyQueryOptions) :
    (sortedDeficiencies defs opts).length = (filteredDeficiencies defs opts).length :=
  sortByCmp_length _ _

/-- A fold preserves an invariant preserved by each step. -/
theorem foldl_preserve {α β : Type} (g : β → α → β) (P : β → Prop)
    (hpres : ∀ b a, P b → P (g b a)) :
    ∀ (l : List α) (b : β), P b → P (l.foldl g b) := by
  intro l
  induction l with
  | nil => intro b hb; exact hb
  | cons x xs ih => intro b hb; exact ih (g b x) (hpres b x hb)

/-- A fold establishes an invariant that some occurring element establishes
and every step preserves. -/
theorem foldl_attains {α β : Type} (g : β → α → β) (P : β → Prop)
    (hpres : ∀ b a, P b → P (g b a)) (a0 : α) (hset : ∀ b, P (g b a0)) :
    ∀ (l : List α) (b : β), a0 ∈ l → P (l.foldl g b) := by
  intro l
  induction l with
  | nil => intro b hmem; cases hmem
  | cons x xs ih =>
    intro b hmem
    rcases List.mem_cons.mp hmem with h | h
    · subst h
      exact foldl_preserve g P hpres xs (g b a0) (hset b)
    · exact ih (g b x) h

/-- Every step of the include fold keeps the five basic fields once set
(each branch either leaves a field alone or rewrites it to the same report
attribute). -/
theorem applyIncludeField_preserves_basic (r : Report)
    (opts : DeficiencyQueryOptions) (b : IncludeResult) (f : String)
    (hb : b.facilityId = some r.facilityId ∧ b.surveyType = some r.surveyType ∧
      b.complianceScore = some r.complianceScore ∧ b.status = some r.status ∧
      b.surveyDate = some r.surveyDate) :
    (applyIncludeField r opts b f).facilityId = some r.facilityId ∧
      (applyIncludeField r opts b f).surveyType = some r.surveyType ∧
      (applyIncludeField r opts b f).complianceScore = some r.complianceScore ∧
      (applyIncludeField r opts b f).status = some r.status ∧
      (applyIncludeField r opts b f).surveyDate = some r.surveyDate := by
  obtain ⟨h1, h2, h3, h4, h5⟩ := hb
  unfold applyIncludeField
  by_cases c1 : f = "basic"
  · rw [if_pos c1]; exact ⟨rfl, rfl, rfl, rfl, rfl⟩
  rw [if_neg c1]
  by_cases c2 : f = "deficiencies"
  · rw [if_pos c2]; exact ⟨h1, h2, h3, h4, h5⟩
  rw [if_neg c2]
  by_cases c3 : f = "notes"
  · rw [if_pos c3]; exact ⟨h1, h2, h3, h4, h5⟩
  rw [if_neg c3]
  by_cases c4 : f = "surveyorNotes"
  · rw [if_pos c4]; exact ⟨h1, h2, h3, h4, h5⟩
  rw [if_neg c4]
  by_cases c5 : f = "complianceScore"
  · rw [if_pos c5]; exact ⟨h1, h2, rfl, h4, h5⟩
  rw [if_neg c5]
  by_cases c6 : f = "status"
  · rw [if_pos c6]; exact ⟨h1, h2, h3, rfl, h5⟩
  rw [if_neg c6]
  by_cases c7 : f = "surveyType"
  · rw [if_pos c7]; exact ⟨h1, rfl, h3, h4, h5⟩
  rw [if_neg c7]
  by_cases c8 : f = "facilityId"
  · rw [if_pos c8]; exact ⟨rfl, h2, h3, h4, h5⟩
  rw [if_neg c8]
  by_cases c9 : f = "leadSurveyor"
  · rw [if_pos c9]; exact ⟨h1, h2, h3, h4, h5⟩
  rw [if_neg c9]
  by_cases c10 : f = "surveyDate"
  · rw [if_pos c10]; exact ⟨h1, h2, h3, h4, rfl⟩
  rw [if_neg c10]
  by_cases c11 : f = "accreditationBody"
  · rw [if_pos c11]; exact ⟨h1, h2, h3, h4, h5⟩
  rw [if_neg c11]
  exact ⟨h1, h2, h3, h4, h5⟩

/-- The `basic` branch sets all five basic fields. -/
theorem applyIncludeField_basic (r : Report) (opts : DeficiencyQueryOptions)
    (b : IncludeResult) :
    (applyIncludeField r opts b "basic").facilityId = some r.facilityId ∧
      (applyIncludeField r opts b "basic").surveyType = some r.surveyType ∧
      (applyIncludeField r opts b "basic").complianceScore = some r.complianceScore ∧
      (applyIncludeField r opts b "basic").status = some r.status ∧
      (applyIncludeField r opts b "basic").surveyDate = some r.surveyDate := by
  unfold applyIncludeField
  rw [if_pos rfl]
  exact ⟨rfl, rfl, rfl, rfl, rfl⟩

/-- Concrete deficiencies used by the formatting claims. -/
def wDefMajor : Deficiency :=
  { id := "d1", standardCode := "A.01", description := "major finding",
    severity := .major, dueDate := none }

def wDefMinor : Deficiency :=
  { id := "d2", standardCode := "B.01", description := "minor finding",
    severity := .minor, dueDate := none }

theorem versionless_update_defaults_to_one_witness :
    resolveVersion (some 0) none = 1 ∧
      (isVersionConflict (updateReportById [mkReport "r-3" "f" SurveyStatus.compliant 1]
          "r-3" {} (resolveVersion (some 0) none) "u" 4).2 = false ↔
        (mkReport "r-3" "f" SurveyStatus.compliant 1).version = 1) :=
  ⟨(versionless_update_defaults_to_one (some 0) none (Or.inr rfl) rfl).1,
    (versionless_update_defaults_to_one (some 0) none (Or.inr rfl) rfl).2
      [mkReport "r-3" "f" SurveyStatus.compliant 1] "r-3" "u" {} 4
      (mkReport "r-3" "f" SurveyStatus.compliant 1) rfl⟩

/-- C6 (evaluation at the failing input): with the default sort parameters
(`sortBy` = severity, `order` absent, i.e. `desc`) the comparator
`-(severityOrder[b] - severityOrder[a])` places *minor before major*
(ascending severity rank), and `order=asc` yields the descending order —
the opposite of the direction stated by the specification, by the source's
own comment (`immediate_jeopardy > major > minor`) and by the test that
expects `deficiencies[0].severity === 'immediate_jeopardy'` under
`order=desc`. -/
theorem severity_sort_direction_eval :
    formatDeficiencies [wDefMajor, wDefMinor] {} =
      DeficienciesResult.bare [wDefMinor, wDefMajor] ∧
    formatDeficiencies [wDefMajor, wDefMinor] { order := some .desc } =
      DeficienciesResult.bare [wDefMinor, wDefMajor] ∧
    formatDeficiencies [wDefMajor, wDefMinor] { order := some .asc } =
      DeficienciesResult.bare [wDefMajor, wDefMinor] := by
  refine ⟨by decide, by decide, by decide⟩

/-- C7 (counterexample): when neither `page` nor `limit` is supplied, the
result is *not* always the bare filtered-and-sorted array — the default
window `slice(0, 20)` still applies, so a 21-deficiency report loses its
last item. -/
theorem bare_deficiencies_truncated_counterexample :
    formatDeficiencies (List.replicate 21 wDefMajor) {} ≠
      DeficienciesResult.bare (sortedDeficiencies (List.replicate 21 wDefMajor) {}) := by
  decide

/-- C7 (amended): with `page` or `limit` truthily supplied, the result is
the `{ items, pagination }` envelope with `items` the slice
`[(page-1)*limit, (page-1)*limit + limit)` of the filtered and sorted list,
`totalPages = ceil(filteredCount / limit)`, `totalItems = filteredCount`,
`currentPage = page`, `itemsPerPage = limit`, `hasNext` iff further filtered
items remain past the slice, `hasPrev` iff `page > 1` (with `page`/`limit`
defaulting to 1/20 when only the other was supplied); with neither
supplied, the result is the bare filtered/sorted array truncated to the
first 20 items (the default window). -/
theorem deficiency_pagination_envelope (defs : List Deficiency)
    (opts : DeficiencyQueryOptions) :
    ((natTruthy opts.page || natTruthy opts.limit) = false →
      formatDeficiencies defs opts =
        DeficienciesResult.bare ((sortedDeficiencies defs opts).take 20))
    ∧ ((natTruthy opts.page || natTruthy opts.limit) = true →
      formatDeficiencies defs opts =
        DeficienciesResult.paginated
          (((sortedDeficiencies defs opts).drop
              ((jsOrNat opts.page 1 - 1) * jsOrNat opts.limit 20)).take
            (jsOrNat opts.limit 20))
          { currentPage := jsOrNat opts.page 1
            totalPages := (filteredDeficiencies defs opts).length ⌈/⌉ jsOrNat opts.limit 20
            totalItems := (filteredDeficiencies defs opts).length
            itemsPerPage := jsOrNat opts.limit 20
            hasNext := decide ((jsOrNat opts.page 1 - 1) * jsOrNat opts.limit 20 +
              jsOrNat opts.limit 20 < (filteredDeficiencies defs opts).length)
            hasPrev := decide (jsOrNat opts.page 1 > 1) }) := by
  constructor
  · intro h
    obtain ⟨hp, hl⟩ : natTruthy opts.page = false ∧ natTruthy opts.limit = false := by
      simpa [Bool.or_eq_false_iff] using h
    have hp1 : jsOrNat opts.page 1 = 1 := by
      cases hpo : opts.page with
      | none => rfl
      | some v =>
        rw [hpo] at hp
        have hv0 : v = 0 := by simpa [natTruthy] using hp
        simp [jsOrNat, hv0]
    have hl20 : jsOrNat opts.limit 20 = 20 := by
      cases hlo : opts.limit with
      | none => rfl
      | some v =>
        rw [hlo] at hl
        have hv0 : v = 0 := by simpa [natTruthy] using hl
        simp [jsOrNat, hv0]
    simp [formatDeficiencies, h, hp1, hl20]
  · intro h
    simp only [formatDeficiencies, h, if_true]
    rw [sortedDeficiencies_length, Nat.ceilDiv_eq_add_pred_div]

/-- Options and deficiency list matching the specification's pagination
scenario (`page=1&limit=2` over 4 deficiencies, no severity filter). -/
def wPageOpts : DeficiencyQueryOptions := { page := some 1, limit := some 2 }

def wDefs4 : List Deficiency := [wDefMajor, wDefMinor, wDefMajor, wDefMinor]

theorem deficiency_pagination_envelope_witness :
    ((natTruthy ({} : DeficiencyQueryOptions).page ||
        natTruthy ({} : DeficiencyQueryOptions).limit) = false ∧
      formatDeficiencies [wDefMajor, wDefMinor] {} =
        DeficienciesResult.bare
          ((sortedDeficiencies [wDefMajor, wDefMinor] {}).take 20)) ∧
    ((natTruthy wPageOpts.page || natTruthy wPageOpts.limit) = true ∧
      formatDeficiencies wDefs4 wPageOpts =
        DeficienciesResult.paginated
          (((sortedDeficiencies wDefs4 wPageOpts).drop 0).take 2)
          { currentPage := 1, totalPages := 2, totalItems := 4,
            itemsPerPage := 2, hasNext := true, hasPrev := false }) :=
  ⟨⟨rfl, (deficiency_pagination_envelope [wDefMajor, wDefMinor] {}).1 rfl⟩,
    ⟨rfl, (deficiency_pagination_envelope wDefs4 wPageOpts).2 rfl⟩⟩

/-- C8 (counterexample): `basic` does not override individually listed
field names — `include=basic,leadSurveyor` also copies `leadSurveyor`, so
the output is not exactly `id` plus the fixed five-field subset. -/
theorem include_basic_not_exclusive_counterexample :
    (formatWithInclude (mkReport "r-8" "f" SurveyStatus.compliant 1)
        "basic,leadSurveyor" {}).leadSurveyor = some "Lead" ∧
    (formatWithInclude (mkReport "r-8" "f" SurveyStatus.compliant 1)
        "basic,leadSurveyor" {}).leadSurveyor ≠ none := by
  decide

/-- C8 (amended): whenever `basic` appears among the requested names, the
output carries `id` plus the fixed subset {facilityId, surveyType,
complianceScore, status, surveyDate}; other recognized names listed
alongside are additionally included (`basic` does not suppress them); when
`basic` is the only parsed name the output is exactly `id` plus that
subset; and unrecognized names are silently ignored (they never change the
result, so they never cause an error). -/
theorem include_basic_amended (r : Report) (opts : DeficiencyQueryOptions)
    (includeStr : String) :
    ("basic" ∈ parseIncludeFields includeStr →
      (formatWithInclude r includeStr opts).facilityId = some r.facilityId ∧
      (formatWithInclude r includeStr opts).surveyType = some r.surveyType ∧
      (formatWithInclude r includeStr opts).complianceScore = some r.complianceScore ∧
      (formatWithInclude r includeStr opts).status = some r.status ∧
      (formatWithInclude r includeStr opts).surveyDate = some r.surveyDate)
    ∧ (parseIncludeFields includeStr = ["basic"] →
      formatWithInclude r includeStr opts =
        { id := r.id, facilityId := some r.facilityId,
          surveyType := some r.surveyType,
          complianceScore := some r.complianceScore, status := some r.status,
          surveyDate := some r.surveyDate })
    ∧ (∀ f, f ∉ recognizedIncludeFields →
        ∀ acc, applyIncludeField r opts acc f = acc) := by
  refine ⟨?_, ?_, ?_⟩
  · intro hmem
    exact foldl_attains (applyIncludeField r opts)
      (fun acc => acc.facilityId = some r.facilityId ∧
        acc.surveyType = some r.surveyType ∧
        acc.complianceScore = some r.complianceScore ∧
        acc.status = some r.status ∧ acc.surveyDate = some r.surveyDate)
      (fun b a hb => applyIncludeField_preserves_basic r opts b a hb)
      "basic" (fun b => applyIncludeField_basic r opts b)
      (parseIncludeFields includeStr) { id := r.id } hmem
  · intro hparse
    unfold formatWithInclude
    rw [hparse]
    rfl
  · intro f hf acc
    simp only [recognizedIncludeFields, List.mem_cons, List.not_mem_nil,
      not_or] at hf
    obtain ⟨h1, h2, h3, h4, h5, h6, h7, h8, h9, h10, h11, -⟩ := hf
    simp [applyIncludeField, h1, h2, h3, h4, h5, h6, h7, h8, h9, h10, h11]

theorem include_basic_amended_witness :
    ("basic" ∈ parseIncludeFields "basic,leadSurveyor" ∧
      (formatWithInclude (mkReport "r-8" "f" SurveyStatus.compliant 1)
          "basic,leadSurveyor" {}).facilityId = some "f") ∧
    (parseIncludeFields "basic" = ["basic"] ∧
      formatWithInclude (mkReport "r-8" "f" SurveyStatus.compliant 1) "basic" {} =
        { id := "r-8", facilityId := some "f",
          surveyType := some .comprehensive, complianceScore := some 50,
          status := some .compliant, surveyDate := some 0 }) ∧
    ("zzz" ∉ recognizedIncludeFields ∧
      applyIncludeField (mkReport "r-8" "f" SurveyStatus.compliant 1) {}
        { id := "r-8" } "zzz" = { id := "r-8" }) :=
  ⟨⟨by decide,
      ((include_basic_amended (mkReport "r-8" "f" SurveyStatus.compliant 1) {}
        "basic,leadSurveyor").1 (by decide)).1⟩,
    ⟨by decide,
      (include_basic_amended (mkReport "r-8" "f" SurveyStatus.compliant 1) {}
        "basic").2.1 (by decide)⟩,
    ⟨by decide,
      (include_basic_amended (mkReport "r-8" "f" SurveyStatus.compliant 1) {}
        "x").2.2 "zzz" (by decide) { id := "r-8" }⟩⟩

end Medlaunch
